import Mathlib

/-!
Verification of the Smart File System core of the Mindful-Organizer repository:
a shallow embedding in Lean 4 of `file_indexer.py`, `file_clusterer.py`,
`output_generator.py` and `smart_file_system.py`, with theorems settling the
specification claims about indexing, similarity search, clustering, labelling,
reporting and the orchestrator's sequencing behaviour.

External dependencies of the Python code (the sentence-transformer embedding
model, the UMAP reducer, the HDBSCAN clusterer, the OS file system, the clock)
are modelled as explicit parameters or as fields recording the outcome of the
corresponding call; everything the repository itself computes is transcribed.
Floating-point vectors are idealised as rational vectors.
-/

namespace SmartFS

/-- Python exception values that the modelled code can raise. -/
inductive PyErr where
  | nameError (n : String)
  | unicodeDecodeError
  | osError (path : String)
  | valueError (msg : String)
  | keyError (k : String)
deriving Repr, DecidableEq

/-- Python `str.lower`, used on file extensions (ASCII suffixes in practice). -/
def pyLower (s : String) : String := String.mk (s.data.map Char.toLower)

/-- Python `pathlib.Path(p).name` for POSIX paths: the final path component
(empty and redundant components are dropped, as `pathlib` normalises them). -/
def basename (p : String) : String :=
  String.mk (((p.data.splitOn '/').filter (fun c => c ≠ [])).getLastD [])

/-- One row of the `files` table created by `FileIndexer._init_db`:
path (UNIQUE), SHA-256 hash, stat metadata, extension tag, the JSON metadata
dict (here: its integer entries), and an optional embedding vector. -/
structure FileRecord where
  path : String
  file_hash : String
  last_modified : Int
  size : Nat
  file_type : String
  metadata : List (String × Nat)
  embedding : Option (List Rat)
deriving Repr, DecidableEq

/-- The `files` table, in rowid (insertion) order. -/
abbrev Store := List FileRecord

/-- `INSERT OR REPLACE` on the UNIQUE `path` column: any conflicting row is
deleted and the new row is inserted with a fresh autoincrement rowid, i.e. at
the end of rowid order. -/
def insertOrReplace (s : Store) (r : FileRecord) : Store :=
  s.filter (fun x => x.path != r.path) ++ [r]

/-- A file on disk as seen through the calls `index_file` makes: its path,
whether opening/stat-ing it raises (I/O or permission failure), the SHA-256
hex digest of its bytes, the stat results, its suffix, and the result of
decoding its bytes as UTF-8 (`none` models a `UnicodeDecodeError`). -/
structure SrcFile where
  path : String
  ioFails : Bool
  hashHex : String
  mtime : Int
  size : Nat
  suffix : String
  utf8 : Option String
deriving Repr, DecidableEq

/-- The text-type extension set hard-coded in `FileIndexer.index_file`. -/
def textTypes : List String := [".txt", ".md", ".py", ".js", ".html", ".css", ".json"]

/-- The sentence-transformer `encode` call: an external deterministic model,
taken as a parameter. -/
abbrev EmbedModel := String → List Rat

/-- Python `content.count (backslash n)` as used for the `lines` metadata entry. -/
def countNewlines (s : String) : Nat := s.toList.count '\n'

/-- The FileRecord `index_file` builds for a text-type file whose content
decoded successfully. -/
def textRecord (em : EmbedModel) (f : SrcFile) (content : String) : FileRecord :=
  { path := f.path
  , file_hash := f.hashHex
  , last_modified := f.mtime
  , size := f.size
  , file_type := pyLower f.suffix
  , metadata := [("content_length", content.length), ("lines", countNewlines content + 1)]
  , embedding := some (em content) }

/-- The FileRecord `index_file` builds for a non-text-type file: empty
metadata dict and a NULL embedding. -/
def binaryRecord (f : SrcFile) : FileRecord :=
  { path := f.path
  , file_hash := f.hashHex
  , last_modified := f.mtime
  , size := f.size
  , file_type := pyLower f.suffix
  , metadata := []
  , embedding := none }

/-- The `try` body of `FileIndexer.index_file`: hash and stat the file (these
raise when the OS call fails), then, for a recognised text extension, read the
content as UTF-8 (raising `UnicodeDecodeError` on undecodable bytes) and embed
it, and finally upsert the record. -/
def indexFileBody (em : EmbedModel) (store : Store) (f : SrcFile) : Except PyErr Store :=
  if f.ioFails then Except.error (PyErr.osError f.path)
  else if pyLower f.suffix ∈ textTypes then
    match f.utf8 with
    | none => Except.error PyErr.unicodeDecodeError
    | some content => Except.ok (insertOrReplace store (textRecord em f content))
  else Except.ok (insertOrReplace store (binaryRecord f))

/-- `FileIndexer.index_file`: the whole body is wrapped in
`try ... except Exception: return False`, so every raised error becomes a
`False` return with the store untouched. -/
def indexFile (em : EmbedModel) (store : Store) (f : SrcFile) : Bool × Store :=
  match indexFileBody em store f with
  | Except.ok s => (true, s)
  | Except.error _ => (false, store)

/-- Whether `index_file` succeeds on a file (derived from `indexFileBody`:
success does not depend on the store). -/
def indexOk (f : SrcFile) : Bool :=
  !f.ioFails && (!(decide (pyLower f.suffix ∈ textTypes)) || f.utf8.isSome)

/-- The record `index_file` stores on success. -/
def recordOf (em : EmbedModel) (f : SrcFile) : FileRecord :=
  match f.utf8 with
  | some content =>
      if pyLower f.suffix ∈ textTypes then textRecord em f content else binaryRecord f
  | none => binaryRecord f

/-- An entry produced by the `path.rglob` walk in
`SmartFileSystem.index_directory`: either a regular file or some other
directory entry (sub-directory, symlink, ...), which the walk skips. -/
structure DirEntry where
  isFile : Bool
  file : SrcFile
deriving Repr, DecidableEq

/-- One step of the `index_directory` loop: non-file entries are skipped,
files are indexed, and the success counter is incremented only when
`index_file` returned True. -/
def indexStep (em : EmbedModel) (acc : Nat × Store) (e : DirEntry) : Nat × Store :=
  if e.isFile then
    ((if (indexFile em acc.2 e.file).1 then acc.1 + 1 else acc.1),
     (indexFile em acc.2 e.file).2)
  else acc

/-- `SmartFileSystem.index_directory` on an existing directory: the recursive
walk is the given entries list; the `status` and `time_elapsed` fields
(external clock) are omitted, the model returns the `files_indexed` count and
the resulting store. -/
def indexDirectory (em : EmbedModel) (store : Store) (entries : List DirEntry) :
    Nat × Store :=
  entries.foldl (indexStep em) (0, store)

/-- The rows `search_similar_files` scores: the `WHERE embedding IS NOT NULL`
rows in rowid (storage) order, each paired with the value of the registered
`cosine_sim` SQL function on its embedding and the query embedding. The cosine
function itself operates on floating-point vectors, so it is taken as an
abstract scoring parameter. -/
def candidates (sim : List Rat → List Rat → Rat) (qe : List Rat) (store : Store) :
    List (String × Rat) :=
  store.filterMap (fun r => r.embedding.map (fun e => (r.path, sim e qe)))

/-- `FileIndexer.search_similar_files`: the query
`SELECT path, cosine_sim(...) ... ORDER BY similarity DESC LIMIT top_k`.
SQLite guarantees only that the output is the first `top_k` rows of some
reordering of the candidate rows that is descending in the key: the relative
order of rows with equal keys, and which tied rows fall inside the LIMIT cut,
are left undefined. The query therefore denotes a set of admissible outputs
rather than a single list, and this predicate holds of exactly those
outputs. -/
def searchOutcome (sim : List Rat → List Rat → Rat) (qe : List Rat)
    (store : Store) (top_k : Nat) (out : List (String × Rat)) : Prop :=
  ∃ ranked : List (String × Rat),
    ranked.Perm (candidates sim qe store) ∧
    ranked.Pairwise (fun a b => b.2 ≤ a.2) ∧
    out = ranked.take top_k

/-- The names bound at module level in `file_clusterer.py` (its import
statements and class definitions); note that `sqlite3` is absent. -/
def fileClustererGlobals : List String :=
  ["np", "List", "Dict", "Optional", "HDBSCAN", "TSNE", "SentenceTransformer",
   "FileIndexer", "umap", "plt", "json", "Path", "FileClusterer"]

/-- Python name resolution at module scope inside `file_clusterer.py`: an
unbound name raises `NameError`. -/
def resolveGlobal (n : String) : Except PyErr Unit :=
  if n ∈ fileClustererGlobals then Except.ok () else Except.error (PyErr.nameError n)

/-- `FileClusterer._get_all_embeddings`: its first statement is
`with sqlite3.connect(...)`, which resolves the name `sqlite3`; it then scans
the rows with a non-NULL embedding and returns either `(None, None)` (modelled
as `none`) or the embedding matrix paired with the path list, in rowid order. -/
def getAllEmbeddings (store : Store) : Except PyErr (Option (List (List Rat) × List String)) := do
  resolveGlobal "sqlite3"
  let results := store.filterMap (fun r => r.embedding.map (fun e => (r.path, e)))
  if results.isEmpty then
    return none
  else
    return some (results.map (fun x => x.2), results.map (fun x => x.1))

/-- Total number of elements of a numpy 2-d array given as a list of rows. -/
def npSize (rows : List (List Rat)) : Nat := (rows.map List.length).sum

/-- Truth test on a numpy array (`not embeddings` in `cluster_files`): an
empty array is falsy, an array of exactly one element takes the truth value of
that element, and any larger array raises `ValueError` (ambiguous truth
value). -/
def npNot (rows : List (List Rat)) : Except PyErr Bool :=
  if npSize rows = 0 then Except.ok true
  else if npSize rows = 1 then Except.ok (decide (rows.flatten = ([0] : List Rat)))
  else Except.error (PyErr.valueError "ambiguous truth value")

/-- Componentwise mean of the member embeddings (`np.mean(..., axis=0)`). -/
def centroid (vs : List (List Rat)) : List Rat :=
  match vs with
  | [] => []
  | v :: _ => (List.range v.length).map (fun j =>
      ((vs.map (fun w => w.getD j 0)).sum) / (vs.length : Rat))

/-- Squared Euclidean distance. The code compares `np.linalg.norm` values;
square roots preserve the ordering, so minimisers of the squared distance are
exactly the minimisers of the distance. -/
def dist2 (u v : List Rat) : Rat :=
  (u.zipWith (fun a b => (a - b) * (a - b)) v).sum

/-- `np.argmin`: the index of the first occurrence of the minimum. -/
def argminFirst : List Rat → Nat
  | [] => 0
  | x :: rest => if rest.all (fun y => decide (x ≤ y)) then 0 else argminFirst rest + 1

/-- The indices of the rows assigned to a given cluster id (`np.where`,
in increasing index order). -/
def memberIndices (clusters : List Int) (cid : Int) : List Nat :=
  (List.range clusters.length).filter (fun i => decide (clusters.getD i 0 = cid))

/-- Centroid of the full-dimensional embeddings of a cluster's members. -/
def clusterCentroid (embeddings : List (List Rat)) (clusters : List Int) (cid : Int) :
    List Rat :=
  centroid ((memberIndices clusters cid).map (fun i => embeddings.getD i []))

/-- The `distances` array of `_generate_cluster_labels`: the distance of each
member embedding to the cluster centroid, in member order (squared distances;
`np.linalg.norm` takes the square root, which does not change the argmin). -/
def clusterDists (embeddings : List (List Rat)) (clusters : List Int) (cid : Int) :
    List Rat :=
  ((memberIndices clusters cid).map (fun i => embeddings.getD i [])).map
    (fun e => dist2 e (clusterCentroid embeddings clusters cid))

/-- The `closest_idx` of `_generate_cluster_labels`:
`cluster_indices[np.argmin(distances)]`. -/
def closestIdx (embeddings : List (List Rat)) (clusters : List Int) (cid : Int) : Nat :=
  (memberIndices clusters cid).getD
    (argminFirst (clusterDists embeddings clusters cid)) 0

/-- The label `_generate_cluster_labels` builds for a non-noise cluster:
`Cluster {id}: {name}` where the name is the basename of the member closest to
the cluster centroid (first index on ties, as `np.argmin` returns the first
minimiser). -/
def clusterLabelFor (embeddings : List (List Rat)) (clusters : List Int)
    (file_paths : List String) (cid : Int) : String :=
  "Cluster " ++ toString cid ++ ": "
    ++ basename (file_paths.getD (closestIdx embeddings clusters cid) "")

/-- The value assigned to `cluster_labels[cid]` in the loop body. -/
def labelOf (embeddings : List (List Rat)) (clusters : List Int)
    (file_paths : List String) (cid : Int) : String :=
  if cid = -1 then "Uncategorized" else clusterLabelFor embeddings clusters file_paths cid

/-- `FileClusterer._generate_cluster_labels`: one entry per distinct cluster
id (Python iterates `set(clusters)` in an unspecified order; the mapping is
order-independent, modelled over the deduplicated id list). -/
def generateClusterLabels (embeddings : List (List Rat)) (clusters : List Int)
    (file_paths : List String) : List (Int × String) :=
  clusters.dedup.map (fun cid => (cid, labelOf embeddings clusters file_paths cid))

/-- The success dict built by `FileClusterer.cluster_files` (note: it carries
no `status` key). -/
structure ClusteringResults where
  file_paths : List String
  clusters : List Int
  cluster_labels : List (Int × String)
  reduced_embeddings : List (List Rat)
deriving Repr, DecidableEq

/-- The two dict shapes `FileClusterer.cluster_files` can return. -/
inductive ClusterOutcome where
  | errorDict (message : String)
  | results (r : ClusteringResults)
deriving Repr, DecidableEq

/-- `FileClusterer.cluster_files`. The UMAP reducer and the HDBSCAN
`fit_predict` are external library calls, taken as parameters. It fetches the
embeddings, tests `not embeddings` (truthiness of `None` or of the numpy
array), and on a non-empty store runs reduce / cluster / label. -/
def clusterFiles (reduce : List (List Rat) → List (List Rat))
    (fitPredict : List (List Rat) → List Int) (store : Store) :
    Except PyErr ClusterOutcome := do
  let pair ← getAllEmbeddings store
  match pair with
  | none => return ClusterOutcome.errorDict "No embeddings found"
  | some (embeddings, file_paths) => do
    let falsy ← npNot embeddings
    if falsy then
      return ClusterOutcome.errorDict "No embeddings found"
    else
      let reduced := reduce embeddings
      let clusters := fitPredict reduced
      let labels := generateClusterLabels embeddings clusters file_paths
      return ClusterOutcome.results
        { file_paths := file_paths, clusters := clusters,
          cluster_labels := labels, reduced_embeddings := reduced }

/-- The `total_clusters` value of `generate_cluster_report` and the
`clusters_found` value of `SmartFileSystem.cluster_files`:
`len(set(clusters)) - 1` (the comment in the source says `exclude noise`). -/
def totalClustersReported (clusters : List Int) : Int :=
  (clusters.dedup.length : Int) - 1

/-- The number of distinct non-noise cluster ids in an assignment (the
quantity the specification says is reported). -/
def distinctNonNoise (clusters : List Int) : Nat :=
  ((clusters.filter (fun c => decide (c ≠ -1))).dedup).length

/-- `clusters_found` as computed on the success path of
`SmartFileSystem.cluster_files`. -/
def clustersFound (r : ClusteringResults) : Int :=
  totalClustersReported r.clusters

/-- `OutputGenerator._get_example_files`: basenames of the first `count`
members of the cluster, in encounter order. -/
def getExampleFiles (cr : ClusteringResults) (cid : Int) (count : Nat) : List String :=
  (((cr.clusters.zip cr.file_paths).filter (fun x => decide (x.1 = cid))).map
    (fun x => basename x.2)).take count

/-- One entry of the report's `cluster_details` list. -/
structure ClusterDetail where
  cluster_id : Int
  label : String
  file_count : Nat
  example_files : List String
deriving Repr, DecidableEq

/-- `OutputGenerator.generate_cluster_report` output; the `timestamp` field
(external `datetime.now()` call) is omitted. -/
structure ClusterReport where
  total_files : Nat
  total_clusters : Int
  cluster_details : List ClusterDetail
deriving Repr, DecidableEq

/-- `OutputGenerator.generate_cluster_report`: Python iterates
`set(clusters)` in an unspecified order; the details list is modelled over the
deduplicated id list, and no proved claim depends on its order. The label
lookup falls back to the `Unlabeled` default when the id has no entry. -/
def generateClusterReport (cr : ClusteringResults) : ClusterReport :=
  { total_files := cr.file_paths.length
  , total_clusters := totalClustersReported cr.clusters
  , cluster_details := cr.clusters.dedup.map (fun cid =>
      { cluster_id := cid
      , label := (cr.cluster_labels.lookup cid).getD "Unlabeled"
      , file_count := cr.clusters.count cid
      , example_files := getExampleFiles cr cid 3 }) }

/-- The in-memory state of a `SmartFileSystem` instance: its indexer's store
and its `output_generator` attribute (`None` until a `cluster_files` call
reaches the assignment on its success path). -/
structure OrchestratorState where
  db : Store
  output_generator : Option ClusteringResults
deriving Repr, DecidableEq

/-- `SmartFileSystem.__init__`: `self.output_generator = None`. -/
def initOrchestrator (db : Store) : OrchestratorState :=
  { db := db, output_generator := none }

/-- The status dicts returned by the orchestrator's report and visualize
operations: `error` stands for a dict with `status: error` and the given
`message`; `success` carries the `output_path` value. -/
inductive OpResult where
  | error (message : String)
  | success (output_path : String)
deriving Repr, DecidableEq

/-- Python `str(e)` for the modelled exceptions. -/
def pyErrMessage : PyErr → String
  | PyErr.nameError n => "name \x27" ++ n ++ "\x27 is not defined"
  | PyErr.unicodeDecodeError => "invalid utf-8"
  | PyErr.osError p => "cannot open " ++ p
  | PyErr.valueError m => m
  | PyErr.keyError k => "\x27" ++ k ++ "\x27"

/-- `OutputGenerator.save_report`: json and txt formats succeed (the file
write is an external effect), any other format raises `ValueError`. -/
def saveReport (cr : ClusteringResults) (format : String) : Except PyErr ClusterReport :=
  if format = "json" ∨ format = "txt" then Except.ok (generateClusterReport cr)
  else Except.error (PyErr.valueError ("Unsupported format: " ++ format))

/-- `SmartFileSystem.generate_report`: before any successful clustering run
`output_generator` is `None`, giving the fixed sequencing error; otherwise the
report is saved inside a try/except that converts exceptions to error dicts.
The state is returned unchanged in every branch. -/
def generateReport (s : OrchestratorState) (output_path format : String) :
    OpResult × OrchestratorState :=
  match s.output_generator with
  | none => (OpResult.error "Must cluster files first", s)
  | some cr =>
    match saveReport cr format with
    | Except.ok _ => (OpResult.success output_path, s)
    | Except.error e => (OpResult.error (pyErrMessage e), s)

/-- The names bound at module level in `output_generator.py` (its import
statements and class definition); note that `np` and `TSNE` are absent. -/
def outputGeneratorGlobals : List String :=
  ["Dict", "List", "Optional", "json", "Path", "plt", "datetime", "OutputGenerator"]

/-- Python name resolution at module scope inside `output_generator.py`: an
unbound name raises `NameError`. -/
def resolveOutputGlobal (n : String) : Except PyErr Unit :=
  if n ∈ outputGeneratorGlobals then Except.ok ()
  else Except.error (PyErr.nameError n)

/-- `OutputGenerator.generate_cluster_visualization`: the results dict always
carries the `reduced_embeddings` key (modelled structurally, so the initial
membership check passes), after which `np.array(...)` resolves the name `np`,
which `output_generator.py` never imports; the t-SNE and matplotlib calls
that would follow are external effects. -/
def generateClusterVisualization (_cr : ClusteringResults) : Except PyErr Unit := do
  resolveOutputGlobal "np"
  resolveOutputGlobal "TSNE"
  return ()

/-- `SmartFileSystem.visualize_clusters`: the same sequencing guard as
`generate_report`; with the generator set, the body runs inside a try/except
that converts any exception (here the `NameError` from the missing `np`
import) to an error dict, otherwise reporting the path or `displayed`. The
state is returned unchanged in every branch. -/
def visualizeClusters (s : OrchestratorState) (output_path : Option String) :
    OpResult × OrchestratorState :=
  match s.output_generator with
  | none => (OpResult.error "Must cluster files first", s)
  | some cr =>
    match generateClusterVisualization cr with
    | Except.ok _ => (OpResult.success (output_path.getD "displayed"), s)
    | Except.error e => (OpResult.error (pyErrMessage e), s)

/-- Subscripting a cluster_files result dict with `status`: the error dict has
the key, the success dict does not, so Python raises `KeyError`. -/
def outcomeStatus : ClusterOutcome → Except PyErr String
  | ClusterOutcome.errorDict _ => Except.ok "error"
  | ClusterOutcome.results _ => Except.error (PyErr.keyError "status")

/-- The dicts `SmartFileSystem.cluster_files` can return (`time_elapsed`
omitted: external clock). -/
inductive ClusterCallResult where
  | errorDict (message : String)
  | successDict (clusters_found : Int)
deriving Repr, DecidableEq

/-- `SmartFileSystem.cluster_files`: runs the clusterer, reads
`clustering_results[status]`, forwards the error dict unchanged, and on the
other branch stores the output generator and reports `clusters_found`. -/
def orchestratorClusterFiles (reduce : List (List Rat) → List (List Rat))
    (fitPredict : List (List Rat) → List Int) (s : OrchestratorState) :
    Except PyErr (ClusterCallResult × OrchestratorState) := do
  let cres ← clusterFiles reduce fitPredict s.db
  let _st ← outcomeStatus cres
  match cres with
  | ClusterOutcome.errorDict msg =>
      return (ClusterCallResult.errorDict msg, s)
  | ClusterOutcome.results r =>
      return (ClusterCallResult.successDict (clustersFound r),
              { s with output_generator := some r })

/-- A concrete deterministic stand-in for the embedding model, used in the
closed instances below. -/
def em0 : EmbedModel := fun s => [(s.length : Rat)]

/-- A concrete file whose extension is in the text-type set but whose bytes do
not decode as UTF-8. -/
def badUtf8File : SrcFile :=
  { path := "doc.txt", ioFails := false, hashHex := "abc123", mtime := 0, size := 4,
    suffix := ".txt", utf8 := none }

/-- A concrete record used as pre-existing store content in closed instances. -/
def recA : FileRecord :=
  { path := "old.bin", file_hash := "h0", last_modified := 1, size := 2,
    file_type := ".bin", metadata := [], embedding := none }

/-- A concrete text file that indexes successfully. -/
def fileA : SrcFile :=
  { path := "a.txt", ioFails := false, hashHex := "ha", mtime := 1, size := 3,
    suffix := ".txt", utf8 := some "hi" }

/-- A concrete binary file that indexes successfully without an embedding. -/
def fileB : SrcFile :=
  { path := "b.bin", ioFails := false, hashHex := "hb", mtime := 2, size := 5,
    suffix := ".bin", utf8 := none }

/-- A concrete directory walk: one indexable text file, one skipped non-file
entry, one indexable binary file. -/
def dirAB : List DirEntry :=
  [{ isFile := true, file := fileA },
   { isFile := false, file := fileB },
   { isFile := true, file := fileB }]

/-- A concrete directory walk whose single file is a text-extension file with
undecodable bytes. -/
def dirBad : List DirEntry := [{ isFile := true, file := badUtf8File }]

/-- A concrete scoring function for closed search instances: the first
coordinate of the stored embedding (the query embedding is ignored). -/
def simHead : List Rat → List Rat → Rat := fun e _ => e.headD 0

/-- A store with two embedded records, stored `a` then `d`, whose
similarities under `simHead` tie exactly. -/
def storeTie : Store :=
  [{ path := "a", file_hash := "h1", last_modified := 0, size := 1,
     file_type := ".txt", metadata := [], embedding := some [1] },
   { path := "d", file_hash := "h2", last_modified := 0, size := 1,
     file_type := ".txt", metadata := [], embedding := some [1] }]

end SmartFS


namespace SmartFS

lemma resolveGlobal_sqlite3 :
    resolveGlobal "sqlite3" = Except.error (PyErr.nameError "sqlite3") := rfl

lemma getAllEmbeddings_raises (store : Store) :
    getAllEmbeddings store = Except.error (PyErr.nameError "sqlite3") := rfl

/-- C1: the claim's behaviour (a structured error dict on an empty store, and
no unhandled fault on any store) is what the specification demands, but the
code cannot deliver it: `file_clusterer.py` never imports `sqlite3`, so the
first statement of `_get_all_embeddings` raises an uncaught `NameError` for
every store state, embeddings present or not, and `cluster_files` propagates
it instead of returning the `status: error` dict. -/
theorem clusterFiles_always_raises
    (reduce : List (List Rat) → List (List Rat))
    (fitPredict : List (List Rat) → List Int) (store : Store) :
    clusterFiles reduce fitPredict store = Except.error (PyErr.nameError "sqlite3") := rfl

/-- C2: on a freshly constructed orchestrator, and more generally whenever no
`cluster_files` call has set `output_generator` (it is still `None`), both
`generate_report` and `visualize_clusters` return exactly the
`status: error / Must cluster files first` dict and leave the state
unchanged. -/
theorem report_visualize_require_clustering
    (db : Store) (s : OrchestratorState) (out fmt : String) (op : Option String)
    (h : s.output_generator = none) :
    (initOrchestrator db).output_generator = none ∧
    generateReport s out fmt = (OpResult.error "Must cluster files first", s) ∧
    visualizeClusters s op = (OpResult.error "Must cluster files first", s) := by
  refine ⟨rfl, ?_, ?_⟩ <;> simp [generateReport, visualizeClusters, h]

theorem report_visualize_require_clustering_witness :
    (initOrchestrator [recA]).output_generator = none ∧
    generateReport (initOrchestrator [recA]) "report.json" "json"
      = (OpResult.error "Must cluster files first", initOrchestrator [recA]) ∧
    visualizeClusters (initOrchestrator [recA]) none
      = (OpResult.error "Must cluster files first", initOrchestrator [recA]) :=
  report_visualize_require_clustering [recA] (initOrchestrator [recA])
    "report.json" "json" none rfl

/-- C3: at the assignment `[0, 0, 0]` (a single real cluster, no noise point)
the reported totals are `len(set(clusters)) - 1 = 0` in both the report's
`total_clusters` field and the orchestrator's `clusters_found` value, while
the number of distinct non-noise ids is 1: the unconditional `- 1` (commented
`exclude noise` in the source) only matches the specified count when a noise
point is actually present. -/
theorem totalClusters_miscounts_without_noise :
    totalClustersReported [0, 0, 0] = 0 ∧
    clustersFound { file_paths := ["a", "b", "c"], clusters := [0, 0, 0],
                    cluster_labels := [(0, "Cluster 0: a")],
                    reduced_embeddings := [] } = 0 ∧
    (generateClusterReport { file_paths := ["a", "b", "c"], clusters := [0, 0, 0],
                             cluster_labels := [(0, "Cluster 0: a")],
                             reduced_embeddings := [] }).total_clusters = 0 ∧
    distinctNonNoise [0, 0, 0] = 1 := by
  refine ⟨by decide, by decide, by decide, by decide⟩

/-- C5 counterexample: a text-extension file with undecodable bytes. The claim
says `index_file` still succeeds and stores a record without an embedding; the
code returns `False` and stores nothing at this input. -/
theorem indexFile_decode_failure_cex :
    indexFile em0 [] badUtf8File = (false, []) := by decide

/-- C5 amended: for every file whose extension is in the recognized text-type
set but whose bytes fail to decode as UTF-8, the `UnicodeDecodeError` is
caught by `index_file`'s outer per-file handler: the call returns `False`
with the store unchanged (no binary record is written), i.e. the file counts
as an indexing failure rather than being indexed as binary. -/
theorem indexFile_decode_failure (em : EmbedModel) (store : Store) (f : SrcFile)
    (hio : f.ioFails = false) (htext : pyLower f.suffix ∈ textTypes)
    (hdec : f.utf8 = none) :
    indexFile em store f = (false, store) := by
  simp [indexFile, indexFileBody, hio, htext, hdec]

theorem indexFile_decode_failure_witness :
    badUtf8File.ioFails = false ∧ pyLower badUtf8File.suffix ∈ textTypes ∧
    badUtf8File.utf8 = none ∧ indexFile em0 [recA] badUtf8File = (false, [recA]) :=
  ⟨rfl, by decide, rfl,
    indexFile_decode_failure em0 [recA] badUtf8File rfl (by decide) rfl⟩

/-- C9: `index_file` is total at its boundary: every exception the body can
raise (I/O, decode) is caught, the call returns `True` with the updated store
exactly when the body succeeded, and `False` with the store untouched when the
body raised; no exception propagates to the caller. -/
theorem indexFile_never_raises (em : EmbedModel) (store : Store) (f : SrcFile) :
    (∃ s, indexFileBody em store f = Except.ok s ∧ indexFile em store f = (true, s)) ∨
    (∃ e, indexFileBody em store f = Except.error e ∧
      indexFile em store f = (false, store)) := by
  cases h : indexFileBody em store f with
  | ok s => exact Or.inl ⟨s, rfl, by simp [indexFile, h]⟩
  | error e => exact Or.inr ⟨e, rfl, by simp [indexFile, h]⟩

end SmartFS

namespace SmartFS

lemma recordOf_path (em : EmbedModel) (f : SrcFile) : (recordOf em f).path = f.path := by
  unfold recordOf
  cases f.utf8 with
  | none => rfl
  | some c =>
      by_cases h : pyLower f.suffix ∈ textTypes <;> simp [h, textRecord, binaryRecord]

lemma indexFile_eq (em : EmbedModel) (s : Store) (f : SrcFile) :
    indexFile em s f
      = (indexOk f, if indexOk f then insertOrReplace s (recordOf em f) else s) := by
  by_cases hio : f.ioFails = true <;>
    by_cases ht : pyLower f.suffix ∈ textTypes <;>
      cases hu : f.utf8 <;>
        simp [indexFile, indexFileBody, indexOk, recordOf, hio, ht, hu]

lemma indexDirectory_go (em : EmbedModel) :
    ∀ (entries : List DirEntry) (n : Nat) (s : Store),
    entries.foldl (indexStep em) (n, s)
      = (n + entries.countP (fun e => e.isFile && indexOk e.file),
         (entries.filter (fun e => e.isFile && indexOk e.file)).foldl
           (fun st e => (indexFile em st e.file).2) s) := by
  intro entries
  induction entries with
  | nil => intro n s; simp
  | cons e t ih =>
      intro n s
      by_cases hf : e.isFile = true
      · by_cases hok : indexOk e.file = true
        · have hstep : indexStep em (n, s) e
              = (n + 1, insertOrReplace s (recordOf em e.file)) := by
            simp [indexStep, hf, indexFile_eq, hok]
          have hsnd : (indexFile em s e.file).2 = insertOrReplace s (recordOf em e.file) := by
            simp [indexFile_eq, hok]
          simp [List.foldl_cons, hstep, ih, List.countP_cons, List.filter_cons, hf,
            hok, hsnd]
          try omega
        · have hok' : indexOk e.file = false := by
            simpa using hok
          have hstep : indexStep em (n, s) e = (n, s) := by
            simp [indexStep, hf, indexFile_eq, hok']
          simp [List.foldl_cons, hstep, ih, List.countP_cons, List.filter_cons, hf, hok']
      · have hf' : e.isFile = false := by simpa using hf
        have hstep : indexStep em (n, s) e = (n, s) := by simp [indexStep, hf']
        simp [List.foldl_cons, hstep, ih, List.countP_cons, List.filter_cons, hf']

/-- C7: on an existing directory, `index_directory` processes every entry of
the recursive walk: it skips non-file entries, its `files_indexed` equals
exactly the number of file entries whose `index_file` call succeeds, and the
resulting store is the fold of the per-file upserts of the successful files
over the whole walk, so a per-file failure neither stops the walk nor aborts
the remaining files. -/
theorem indexDirectory_counts_successes (em : EmbedModel) (store : Store)
    (entries : List DirEntry) :
    (indexDirectory em store entries).1
      = entries.countP (fun e => e.isFile && indexOk e.file) ∧
    (indexDirectory em store entries).2
      = (entries.filter (fun e => e.isFile && indexOk e.file)).foldl
          (fun st e => (indexFile em st e.file).2) store := by
  have h := indexDirectory_go em entries 0 store
  rw [indexDirectory, h]
  simp

end SmartFS

namespace SmartFS

lemma foldl_indexFile_eq_insert (em : EmbedModel) :
    ∀ (L : List DirEntry) (s : Store), (∀ e ∈ L, indexOk e.file = true) →
    L.foldl (fun st e => (indexFile em st e.file).2) s
      = L.foldl (fun st e => insertOrReplace st (recordOf em e.file)) s := by
  intro L
  induction L with
  | nil => intro s _; rfl
  | cons e t ih =>
      intro s h
      have he : indexOk e.file = true := h e (List.mem_cons_self e t)
      rw [List.foldl_cons, List.foldl_cons,
        show (indexFile em s e.file).2 = insertOrReplace s (recordOf em e.file) by
          simp [indexFile_eq, he]]
      exact ih _ (fun x hx => h x (List.mem_cons_of_mem e hx))

lemma foldl_insertOrReplace_closed :
    ∀ (rs : List FileRecord) (s : Store),
    (rs.map (fun r => r.path)).Nodup →
    rs.foldl insertOrReplace s
      = s.filter (fun x => !(decide (x.path ∈ rs.map (fun r => r.path)))) ++ rs := by
  intro rs
  induction rs with
  | nil => intro s _; simp
  | cons r t ih =>
      intro s hnd
      rw [List.map_cons, List.nodup_cons] at hnd
      obtain ⟨hr, hnd'⟩ := hnd
      rw [List.foldl_cons, ih _ hnd']
      rw [insertOrReplace, List.filter_append]
      have hq : (!(decide (r.path ∈ t.map (fun r => r.path)))) = true := by
        simp only [Bool.not_eq_true', decide_eq_false_iff_not]
        exact hr
      have h1 : List.filter (fun x => !(decide (x.path ∈ t.map (fun r => r.path)))) [r]
          = [r] := by
        rw [List.filter_singleton, hq]
        rfl
      rw [h1, List.filter_filter]
      have h2 : ∀ x ∈ s,
          ((!(decide (x.path ∈ t.map (fun r => r.path)))) && (x.path != r.path))
            = !(decide (x.path ∈ (r :: t).map (fun r => r.path))) := by
        intro x _
        by_cases hxr : x.path = r.path <;>
          by_cases hxt : x.path ∈ t.map (fun r => r.path) <;>
            simp [hxr, hxt]
      rw [List.filter_congr h2]
      rw [List.append_assoc, List.singleton_append]

lemma foldl_insertOrReplace_idem (rs : List FileRecord) (s : Store)
    (h : (rs.map (fun r => r.path)).Nodup) :
    rs.foldl insertOrReplace (rs.foldl insertOrReplace s)
      = rs.foldl insertOrReplace s := by
  rw [foldl_insertOrReplace_closed rs s h, foldl_insertOrReplace_closed rs _ h,
    List.filter_append]
  have h2 : List.filter (fun x => !(decide (x.path ∈ rs.map (fun r => r.path)))) rs
      = [] := by
    rw [List.filter_eq_nil_iff]
    intro a ha
    have hmem : a.path ∈ rs.map (fun r => r.path) := List.mem_map.mpr ⟨a, ha, rfl⟩
    simp [hmem]
  have h3 : List.filter (fun x => !(decide (x.path ∈ rs.map (fun r => r.path))))
        (List.filter (fun x => !(decide (x.path ∈ rs.map (fun r => r.path)))) s)
      = List.filter (fun x => !(decide (x.path ∈ rs.map (fun r => r.path)))) s := by
    rw [List.filter_filter]
    exact List.filter_congr (fun x _ => Bool.and_self _)
  rw [h2, h3, List.append_nil]

lemma foldl_insertOrReplace_nodup (rs : List FileRecord) (s : Store)
    (hrs : (rs.map (fun r => r.path)).Nodup)
    (hs : (s.map (fun r => r.path)).Nodup) :
    ((rs.foldl insertOrReplace s).map (fun r => r.path)).Nodup := by
  rw [foldl_insertOrReplace_closed rs s hrs, List.map_append]
  refine List.Nodup.append ?_ hrs ?_
  · exact hs.sublist (List.Sublist.map _ (List.filter_sublist s))
  · intro x hx
    obtain ⟨rec, hrec, hrx⟩ := List.mem_map.mp hx
    have h4 : rec.path ∉ rs.map (fun r => r.path) := by
      have := List.of_mem_filter hrec
      simpa using this
    rw [← hrx]
    exact h4

end SmartFS

namespace SmartFS

lemma good_filter_eq (entries : List DirEntry) :
    entries.filter (fun e => e.isFile && indexOk e.file)
      = (entries.filter (fun e => e.isFile)).filter (fun e => indexOk e.file) := by
  rw [List.filter_filter]
  exact List.filter_congr (fun e _ => Bool.and_comm _ _)

/-- C8 counterexample: re-indexing an unchanged directory whose single file is
a `.txt` with undecodable bytes. The second run's `files_indexed` is 0, while
the number of files present is 1, so the claim's count equation fails (the
count only covers files whose `index_file` call succeeds). -/
theorem reindex_count_cex :
    (indexDirectory em0 (indexDirectory em0 [] dirBad).2 dirBad).1 = 0 ∧
    dirBad.countP (fun e => e.isFile) = 1 := by decide

/-- C8 amended: indexing the same unchanged directory twice (distinct file
paths, a duplicate-free store) is idempotent: the second run returns the same
`files_indexed` count as the first (the number of files that index
successfully — equal to the number of files present only when every file
succeeds), leaves the store exactly equal record-for-record (same hash, same
embedding), and the store keeps exactly one record per path. -/
theorem reindex_idempotent (em : EmbedModel) (store : Store) (entries : List DirEntry)
    (hpaths : ((entries.filter (fun e => e.isFile)).map (fun e => e.file.path)).Nodup)
    (hstore : (store.map (fun r => r.path)).Nodup) :
    (indexDirectory em (indexDirectory em store entries).2 entries).1
      = (indexDirectory em store entries).1 ∧
    (indexDirectory em (indexDirectory em store entries).2 entries).2
      = (indexDirectory em store entries).2 ∧
    ((indexDirectory em (indexDirectory em store entries).2 entries).2.map
        (fun r => r.path)).Nodup := by
  have hallok : ∀ e ∈ entries.filter (fun e => e.isFile && indexOk e.file),
      indexOk e.file = true := by
    intro e he
    have h := List.of_mem_filter he
    exact (Bool.and_eq_true _ _).mp h |>.2
  have hFs : ∀ s : Store,
      (entries.filter (fun e => e.isFile && indexOk e.file)).foldl
          (fun st e => (indexFile em st e.file).2) s
        = ((entries.filter (fun e => e.isFile && indexOk e.file)).map
            (fun e => recordOf em e.file)).foldl insertOrReplace s := by
    intro s
    rw [foldl_indexFile_eq_insert em _ s hallok]
    exact (List.foldl_map _ _ _ _).symm
  have hrs_paths :
      (((entries.filter (fun e => e.isFile && indexOk e.file)).map
          (fun e => recordOf em e.file)).map (fun r => r.path)).Nodup := by
    have hmapeq :
        ((entries.filter (fun e => e.isFile && indexOk e.file)).map
            (fun e => recordOf em e.file)).map (fun r => r.path)
          = (entries.filter (fun e => e.isFile && indexOk e.file)).map
              (fun e => e.file.path) := by
      rw [List.map_map]
      exact List.map_congr_left (fun e _ => recordOf_path em e.file)
    rw [hmapeq]
    have hsub : List.Sublist (entries.filter (fun e => e.isFile && indexOk e.file))
        (entries.filter (fun e => e.isFile)) := by
      rw [good_filter_eq]
      exact List.filter_sublist _
    exact hpaths.sublist (hsub.map _)
  have h1 : indexDirectory em store entries
      = (entries.countP (fun e => e.isFile && indexOk e.file),
         (entries.filter (fun e => e.isFile && indexOk e.file)).foldl
           (fun st e => (indexFile em st e.file).2) store) := by
    rw [indexDirectory, indexDirectory_go, Nat.zero_add]
  have h2 : indexDirectory em (indexDirectory em store entries).2 entries
      = (entries.countP (fun e => e.isFile && indexOk e.file),
         (entries.filter (fun e => e.isFile && indexOk e.file)).foldl
           (fun st e => (indexFile em st e.file).2)
           ((indexDirectory em store entries).2)) := by
    rw [indexDirectory, indexDirectory_go, Nat.zero_add]
  refine ⟨?_, ?_, ?_⟩
  · rw [h2, h1]
  · rw [h2, h1]
    dsimp only
    simp only [hFs]
    exact foldl_insertOrReplace_idem _ _ hrs_paths
  · rw [h2, h1]
    dsimp only
    simp only [hFs]
    rw [foldl_insertOrReplace_idem _ _ hrs_paths]
    exact foldl_insertOrReplace_nodup _ _ hrs_paths hstore

theorem reindex_idempotent_witness :
    ((dirAB.filter (fun e => e.isFile)).map (fun e => e.file.path)).Nodup ∧
    (indexDirectory em0 (indexDirectory em0 [] dirAB).2 dirAB).1
      = (indexDirectory em0 [] dirAB).1 ∧
    (indexDirectory em0 (indexDirectory em0 [] dirAB).2 dirAB).2
      = (indexDirectory em0 [] dirAB).2 ∧
    ((indexDirectory em0 (indexDirectory em0 [] dirAB).2 dirAB).2.map
        (fun r => r.path)).Nodup :=
  ⟨by decide, reindex_idempotent em0 [] dirAB (by decide) (by decide)⟩

end SmartFS

namespace SmartFS

lemma candidates_length (sim : List Rat → List Rat → Rat) (qe : List Rat)
    (store : Store) :
    (candidates sim qe store).length = store.countP (fun r => r.embedding.isSome) := by
  induction store with
  | nil => rfl
  | cons r t ih =>
      cases h : r.embedding <;>
        simp [candidates, List.filterMap_cons, h, List.countP_cons, ih] <;>
          simp [candidates] at ih <;> omega

lemma searchLE_trans : ∀ (a b c : String × Rat),
    (decide (b.2 ≤ a.2)) → (decide (c.2 ≤ b.2)) → (decide (c.2 ≤ a.2)) := by
  intro a b c hab hbc
  simp only [decide_eq_true_eq] at hab hbc ⊢
  exact le_trans hbc hab

lemma searchLE_total : ∀ (a b : String × Rat),
    (decide (b.2 ≤ a.2)) || (decide (a.2 ≤ b.2)) := by
  intro a b
  rcases le_total a.2 b.2 with h | h <;> simp [h]

/-- C4 counterexample: a store holding two embedded records, stored `a` then
`d`, whose similarities tie exactly. The output placing `d` before `a` is an
admissible outcome of the query (a descending reordering of the candidate
rows, cut at `LIMIT 2`), yet its tie is not in original storage order:
SQLite fixes no order among equal keys, so the claimed storage-order
tie-breaking is not a property the code guarantees. -/
theorem searchSimilarFiles_tie_cex :
    searchOutcome simHead [] storeTie 2 [("d", 1), ("a", 1)] ∧
    candidates simHead [] storeTie = [("a", 1), ("d", 1)] ∧
    ([("d", (1 : Rat)), ("a", 1)] ≠ [("a", (1 : Rat)), ("d", 1)]) := by
  refine ⟨⟨[("d", 1), ("a", 1)], ?_, ?_, rfl⟩, rfl, by decide⟩
  · show List.Perm [("d", (1 : Rat)), ("a", 1)] [("a", (1 : Rat)), ("d", 1)]
    exact List.Perm.swap _ _ _
  · simp

/-- C4 amended: for every scoring function, query embedding, store and
`top_k ≥ 0`, every output admitted by the semantics of
`ORDER BY similarity DESC LIMIT top_k` is a list of
`(path, similarity)` pairs sorted by similarity in descending order whose
length is exactly `min top_k (number of stored records with an embedding)`
(so an oversized `top_k` clamps rather than erroring), an admissible output
always exists, and on an empty store the only admissible output is the empty
list, never an error. The relative order of rows with equal similarity, and
which tied rows fall inside the LIMIT cut, are left undefined by SQLite, so
storage-order tie-breaking is not guaranteed. -/
theorem searchOutcome_spec (sim : List Rat → List Rat → Rat) (qe : List Rat)
    (store : Store) (top_k : Nat) :
    (∃ out, searchOutcome sim qe store top_k out) ∧
    (∀ out, searchOutcome sim qe store top_k out →
      out.length = min top_k (store.countP (fun r => r.embedding.isSome)) ∧
      out.Pairwise (fun a b => b.2 ≤ a.2)) ∧
    (∀ out, searchOutcome sim qe [] top_k out → out = []) := by
  have hsorted : ((candidates sim qe store).mergeSort
      (fun a b => decide (b.2 ≤ a.2))).Pairwise (fun a b => b.2 ≤ a.2) := by
    have h := List.sorted_mergeSort searchLE_trans searchLE_total
      (candidates sim qe store)
    exact h.imp (fun hab => by simpa using hab)
  refine ⟨?_, ?_, ?_⟩
  · exact ⟨((candidates sim qe store).mergeSort
        (fun a b => decide (b.2 ≤ a.2))).take top_k,
      (candidates sim qe store).mergeSort (fun a b => decide (b.2 ≤ a.2)),
      List.mergeSort_perm _ _, hsorted, rfl⟩
  · rintro out ⟨ranked, hperm, hsort, hout⟩
    constructor
    · rw [hout, List.length_take, hperm.length_eq, candidates_length,
        Nat.min_comm]
    · rw [hout]
      exact hsort.sublist (List.take_sublist _ _)
  · rintro out ⟨ranked, hperm, hsort, hout⟩
    have hcand : candidates sim qe ([] : Store) = [] := rfl
    rw [hcand] at hperm
    rw [hout, hperm.eq_nil, List.take_nil]

theorem searchOutcome_spec_witness :
    ([("a", (1 : Rat)), ("d", 1)] : List (String × Rat)).length
        = min 5 (storeTie.countP (fun r => r.embedding.isSome)) ∧
    ([("a", (1 : Rat)), ("d", 1)] : List (String × Rat)).Pairwise
        (fun a b => b.2 ≤ a.2) :=
  (searchOutcome_spec simHead [] storeTie 5).2.1 [("a", 1), ("d", 1)]
    ⟨[("a", 1), ("d", 1)], List.Perm.refl _, by simp, rfl⟩

end SmartFS

namespace SmartFS

lemma getD_in {α : Type} (l : List α) (n : Nat) (d : α) (h : n < l.length) :
    l.getD n d = l[n] := by
  simp [List.getD_eq_getElem?_getD, List.getElem?_eq_getElem h]

lemma argminFirst_lt_length : ∀ (xs : List Rat), xs ≠ [] → argminFirst xs < xs.length := by
  intro xs
  induction xs with
  | nil => intro h; exact absurd rfl h
  | cons x rest ih =>
      intro _
      by_cases h : rest.all (fun y => decide (x ≤ y)) = true
      · simp [argminFirst, h]
      · have hne : rest ≠ [] := by
          intro hr
          rw [hr] at h
          exact h rfl
        have := ih hne
        rw [show argminFirst (x :: rest) = argminFirst rest + 1 by
          simp [argminFirst, h]]
        simp only [List.length_cons]
        omega

lemma exists_lt_of_not_all (x : Rat) (rest : List Rat)
    (h : ¬ rest.all (fun y => decide (x ≤ y)) = true) : ∃ y ∈ rest, y < x := by
  by_contra hcon
  push_neg at hcon
  exact h (List.all_eq_true.mpr (fun y hy => by simpa using hcon y hy))

lemma argminFirst_le : ∀ (xs : List Rat) (j : Nat), j < xs.length →
    xs.getD (argminFirst xs) 0 ≤ xs.getD j 0 := by
  intro xs
  induction xs with
  | nil => intro j hj; simp at hj
  | cons x rest ih =>
      intro j hj
      by_cases h : rest.all (fun y => decide (x ≤ y)) = true
      · have hall : ∀ y ∈ rest, x ≤ y := by
          intro y hy
          simpa using List.all_eq_true.mp h y hy
        rw [show argminFirst (x :: rest) = 0 by simp [argminFirst, h]]
        cases j with
        | zero => simp
        | succ k =>
            have hk : k < rest.length := by simpa using hj
            have hmem : rest.getD k 0 ∈ rest := by
              rw [getD_in rest k 0 hk]
              exact List.getElem_mem hk
            simpa [List.getD_cons_succ] using hall _ hmem
      · rw [show argminFirst (x :: rest) = argminFirst rest + 1 by
          simp [argminFirst, h]]
        cases j with
        | zero =>
            obtain ⟨y, hy, hyx⟩ := exists_lt_of_not_all x rest h
            obtain ⟨k, hk, hky⟩ := List.mem_iff_getElem.mp hy
            have h1 := ih k hk
            rw [getD_in rest k 0 hk, hky] at h1
            simp only [List.getD_cons_succ, List.getD_cons_zero]
            exact le_trans h1 (le_of_lt hyx)
        | succ k =>
            have hk : k < rest.length := by simpa using hj
            simpa [List.getD_cons_succ] using ih k hk

lemma argminFirst_first : ∀ (xs : List Rat) (j : Nat), j < argminFirst xs →
    xs.getD (argminFirst xs) 0 < xs.getD j 0 := by
  intro xs
  induction xs with
  | nil => intro j hj; simp [argminFirst] at hj
  | cons x rest ih =>
      intro j hj
      by_cases h : rest.all (fun y => decide (x ≤ y)) = true
      · rw [show argminFirst (x :: rest) = 0 by simp [argminFirst, h]] at hj
        exact absurd hj (Nat.not_lt_zero j)
      · rw [show argminFirst (x :: rest) = argminFirst rest + 1 by
          simp [argminFirst, h]] at hj ⊢
        cases j with
        | zero =>
            obtain ⟨y, hy, hyx⟩ := exists_lt_of_not_all x rest h
            obtain ⟨k, hk, hky⟩ := List.mem_iff_getElem.mp hy
            have h1 := argminFirst_le rest k hk
            rw [getD_in rest k 0 hk, hky] at h1
            simp only [List.getD_cons_succ, List.getD_cons_zero]
            exact lt_of_le_of_lt h1 hyx
        | succ k =>
            have hk : k < argminFirst rest := by omega
            simpa [List.getD_cons_succ] using ih k hk

lemma memberIndices_spec (clusters : List Int) (cid : Int) (i : Nat) :
    i ∈ memberIndices clusters cid ↔ i < clusters.length ∧ clusters.getD i 0 = cid := by
  simp [memberIndices, List.mem_filter, List.mem_range]

lemma memberIndices_pairwise (clusters : List Int) (cid : Int) :
    (memberIndices clusters cid).Pairwise (· < ·) :=
  List.Pairwise.sublist (List.filter_sublist _) (List.pairwise_lt_range _)

lemma lookup_map_self (f : Int → String) : ∀ (l : List Int) (cid : Int), cid ∈ l →
    (l.map (fun c => (c, f c))).lookup cid = some (f cid) := by
  intro l
  induction l with
  | nil => intro cid h; cases h
  | cons a t ih =>
      intro cid h
      by_cases hca : cid = a
      · subst hca
        simp [List.lookup]
      · have hmem : cid ∈ t := by
          rcases List.mem_cons.mp h with h1 | h1
          · exact absurd h1 hca
          · exact h1
        have hbeq : (cid == a) = false := by simpa using hca
        simp [List.lookup, hbeq, ih cid hmem]

end SmartFS

namespace SmartFS

lemma clusterDists_length (embeddings : List (List Rat)) (clusters : List Int)
    (cid : Int) :
    (clusterDists embeddings clusters cid).length
      = (memberIndices clusters cid).length := by
  simp [clusterDists]

lemma clusterDists_getD (embeddings : List (List Rat)) (clusters : List Int)
    (cid : Int) (k : Nat) (hk : k < (memberIndices clusters cid).length) :
    (clusterDists embeddings clusters cid).getD k 0
      = dist2 (embeddings.getD ((memberIndices clusters cid).getD k 0) [])
          (clusterCentroid embeddings clusters cid) := by
  have hk2 : k < (clusterDists embeddings clusters cid).length := by
    rw [clusterDists_length]
    exact hk
  rw [getD_in _ _ _ hk2, getD_in _ _ _ hk]
  simp [clusterDists]

lemma clusterLabelFor_spec (embeddings : List (List Rat)) (clusters : List Int)
    (file_paths : List String) (cid : Int) (h : cid ∈ clusters) :
    ∃ i : Nat, i < clusters.length ∧ clusters.getD i 0 = cid ∧
      clusterLabelFor embeddings clusters file_paths cid
        = "Cluster " ++ toString cid ++ ": " ++ basename (file_paths.getD i "") ∧
      (∀ j : Nat, j < clusters.length → clusters.getD j 0 = cid →
        dist2 (embeddings.getD i []) (clusterCentroid embeddings clusters cid)
          ≤ dist2 (embeddings.getD j []) (clusterCentroid embeddings clusters cid)) ∧
      (∀ j : Nat, j < i → clusters.getD j 0 = cid →
        dist2 (embeddings.getD i []) (clusterCentroid embeddings clusters cid)
          < dist2 (embeddings.getD j []) (clusterCentroid embeddings clusters cid)) := by
  obtain ⟨k0, hk0, hk0c⟩ := List.mem_iff_getElem.mp h
  have hk0mem : k0 ∈ memberIndices clusters cid :=
    (memberIndices_spec _ _ _).mpr ⟨hk0, by rw [getD_in _ _ _ hk0]; exact hk0c⟩
  have hne : memberIndices clusters cid ≠ [] := List.ne_nil_of_mem hk0mem
  have hdne : clusterDists embeddings clusters cid ≠ [] := by
    intro hd
    have hlen := clusterDists_length embeddings clusters cid
    rw [hd] at hlen
    exact hne (List.eq_nil_of_length_eq_zero hlen.symm)
  have ha : argminFirst (clusterDists embeddings clusters cid)
      < (memberIndices clusters cid).length := by
    rw [← clusterDists_length embeddings clusters cid]
    exact argminFirst_lt_length _ hdne
  have hidef : closestIdx embeddings clusters cid
      = (memberIndices clusters cid).getD
          (argminFirst (clusterDists embeddings clusters cid)) 0 := rfl
  have himem : closestIdx embeddings clusters cid ∈ memberIndices clusters cid := by
    rw [hidef, getD_in _ _ _ ha]
    exact List.getElem_mem ha
  obtain ⟨hi_lt, hi_c⟩ := (memberIndices_spec _ _ _).mp himem
  have hmono : ∀ (p q : Nat), p < q → q < (memberIndices clusters cid).length →
      (memberIndices clusters cid).getD p 0 < (memberIndices clusters cid).getD q 0 := by
    intro p q hpq hq
    have hp : p < (memberIndices clusters cid).length := lt_trans hpq hq
    rw [getD_in _ _ _ hp, getD_in _ _ _ hq]
    exact (List.pairwise_iff_getElem.mp (memberIndices_pairwise clusters cid))
      p q hp hq hpq
  refine ⟨closestIdx embeddings clusters cid, hi_lt, hi_c, rfl, ?_, ?_⟩
  · intro j hj hjc
    have hjmem : j ∈ memberIndices clusters cid :=
      (memberIndices_spec _ _ _).mpr ⟨hj, hjc⟩
    obtain ⟨k, hk, hkj⟩ := List.mem_iff_getElem.mp hjmem
    have hkjD : (memberIndices clusters cid).getD k 0 = j := by
      rw [getD_in _ _ _ hk]
      exact hkj
    have h1 := argminFirst_le (clusterDists embeddings clusters cid) k
      (by rw [clusterDists_length]; exact hk)
    rw [clusterDists_getD _ _ _ _ ha, clusterDists_getD _ _ _ k hk, hkjD] at h1
    exact h1
  · intro j hj hjc
    have hj_lt : j < clusters.length := lt_trans hj hi_lt
    have hjmem : j ∈ memberIndices clusters cid :=
      (memberIndices_spec _ _ _).mpr ⟨hj_lt, hjc⟩
    obtain ⟨k, hk, hkj⟩ := List.mem_iff_getElem.mp hjmem
    have hkjD : (memberIndices clusters cid).getD k 0 = j := by
      rw [getD_in _ _ _ hk]
      exact hkj
    have hkalt : k < argminFirst (clusterDists embeddings clusters cid) := by
      by_contra hcon
      push_neg at hcon
      rcases Nat.eq_or_lt_of_le hcon with heq | hlt
      · have hij : closestIdx embeddings clusters cid = j := by
          rw [hidef, heq]
          exact hkjD
        omega
      · have hlt2 := hmono _ _ hlt hk
        rw [hkjD, ← hidef] at hlt2
        omega
    have h1 := argminFirst_first (clusterDists embeddings clusters cid) k hkalt
    rw [clusterDists_getD _ _ _ _ ha, clusterDists_getD _ _ _ k hk, hkjD] at h1
    exact h1

/-- C6: the labeler maps the noise id -1, when present, to the literal label
`Uncategorized`, and maps every other cluster id occurring in the assignment
to `Cluster {id}: {name}` where the name is the basename of a member whose
full-dimensional embedding minimises the distance to the cluster's centroid
(squared distances order exactly as Euclidean distances), with ties broken in
favour of the first-encountered member index: every member strictly earlier
than the chosen one is strictly farther from the centroid. -/
theorem generateClusterLabels_spec (embeddings : List (List Rat))
    (clusters : List Int) (file_paths : List String) :
    ((-1 : Int) ∈ clusters →
      (generateClusterLabels embeddings clusters file_paths).lookup (-1)
        = some "Uncategorized") ∧
    (∀ cid : Int, cid ∈ clusters → cid ≠ -1 →
      ∃ i : Nat, i < clusters.length ∧ clusters.getD i 0 = cid ∧
        (generateClusterLabels embeddings clusters file_paths).lookup cid
          = some ("Cluster " ++ toString cid ++ ": "
              ++ basename (file_paths.getD i "")) ∧
        (∀ j : Nat, j < clusters.length → clusters.getD j 0 = cid →
          dist2 (embeddings.getD i []) (clusterCentroid embeddings clusters cid)
            ≤ dist2 (embeddings.getD j []) (clusterCentroid embeddings clusters cid)) ∧
        (∀ j : Nat, j < i → clusters.getD j 0 = cid →
          dist2 (embeddings.getD i []) (clusterCentroid embeddings clusters cid)
            < dist2 (embeddings.getD j []) (clusterCentroid embeddings clusters cid))) := by
  constructor
  · intro h
    rw [generateClusterLabels, lookup_map_self _ _ _ (List.mem_dedup.mpr h)]
    simp [labelOf]
  · intro cid hc hnoise
    obtain ⟨i, h1, h2, h3, h4, h5⟩ :=
      clusterLabelFor_spec embeddings clusters file_paths cid hc
    refine ⟨i, h1, h2, ?_, h4, h5⟩
    rw [generateClusterLabels, lookup_map_self _ _ _ (List.mem_dedup.mpr hc),
      labelOf, if_neg hnoise, h3]

theorem generateClusterLabels_spec_witness :
    ((generateClusterLabels [[0], [0], [1]] [-1, 2, 2]
        ["a/x.txt", "y.md", "z.md"]).lookup (-1) = some "Uncategorized") ∧
    (∃ i : Nat, i < ([-1, 2, 2] : List Int).length ∧
      ([-1, 2, 2] : List Int).getD i 0 = 2 ∧
      (generateClusterLabels [[0], [0], [1]] [-1, 2, 2]
          ["a/x.txt", "y.md", "z.md"]).lookup 2
        = some ("Cluster " ++ toString (2 : Int) ++ ": "
            ++ basename (["a/x.txt", "y.md", "z.md"].getD i "")) ∧
      (∀ j : Nat, j < ([-1, 2, 2] : List Int).length →
        ([-1, 2, 2] : List Int).getD j 0 = 2 →
        dist2 ([[0], [0], [1]].getD i [])
            (clusterCentroid [[0], [0], [1]] [-1, 2, 2] 2)
          ≤ dist2 ([[0], [0], [1]].getD j [])
              (clusterCentroid [[0], [0], [1]] [-1, 2, 2] 2)) ∧
      (∀ j : Nat, j < i → ([-1, 2, 2] : List Int).getD j 0 = 2 →
        dist2 ([[0], [0], [1]].getD i [])
            (clusterCentroid [[0], [0], [1]] [-1, 2, 2] 2)
          < dist2 ([[0], [0], [1]].getD j [])
              (clusterCentroid [[0], [0], [1]] [-1, 2, 2] 2))) :=
  ⟨(generateClusterLabels_spec [[0], [0], [1]] [-1, 2, 2]
      ["a/x.txt", "y.md", "z.md"]).1 (by decide),
   (generateClusterLabels_spec [[0], [0], [1]] [-1, 2, 2]
      ["a/x.txt", "y.md", "z.md"]).2 2 (by decide) (by decide)⟩

end SmartFS

namespace SmartFS

lemma cluster_label_ne_unlabeled (cid : Int) (s : String) :
    "Cluster " ++ toString cid ++ ": " ++ s ≠ "Unlabeled" := by
  intro h
  have h2 := congrArg String.data h
  rw [String.data_append, String.data_append, String.data_append] at h2
  have hC : "Cluster ".data = 'C' :: "luster ".data := rfl
  have hU : "Unlabeled".data = 'U' :: "nlabeled".data := rfl
  rw [hC, hU] at h2
  simp at h2

lemma labelOf_ne_unlabeled (embeddings : List (List Rat)) (clusters : List Int)
    (file_paths : List String) (cid : Int) :
    labelOf embeddings clusters file_paths cid ≠ "Unlabeled" := by
  rw [labelOf]
  split
  · decide
  · rw [clusterLabelFor]
    exact cluster_label_ne_unlabeled cid _

/-- C10: the labels produced by `_generate_cluster_labels` contain an entry
for every distinct cluster id occurring in the assignment (noise included), so
when `generate_cluster_report` runs on a result carrying those labels (as the
success path of `cluster_files` assembles it, for any reducer/clusterer
outcome), its label lookup succeeds for every detail entry and the
`Unlabeled` default is never used. -/
theorem clusterReport_never_unlabeled (embeddings : List (List Rat))
    (clusters : List Int) (file_paths : List String)
    (reduced : List (List Rat)) :
    ((generateClusterReport
        { file_paths := file_paths, clusters := clusters,
          cluster_labels := generateClusterLabels embeddings clusters file_paths,
          reduced_embeddings := reduced }).cluster_details.all
      (fun d => ((generateClusterLabels embeddings clusters file_paths).lookup
          d.cluster_id).isSome && (d.label != "Unlabeled"))) = true := by
  rw [List.all_eq_true]
  intro d hd
  rw [generateClusterReport] at hd
  dsimp only at hd
  obtain ⟨cid, hcid, hdef⟩ := List.mem_map.mp hd
  have hlk : (generateClusterLabels embeddings clusters file_paths).lookup cid
      = some (labelOf embeddings clusters file_paths cid) :=
    lookup_map_self _ _ _ hcid
  rw [← hdef]
  dsimp only
  rw [hlk]
  dsimp only [Option.isSome, Option.getD]
  rw [Bool.true_and]
  simpa using labelOf_ne_unlabeled embeddings clusters file_paths cid

end SmartFS
